import Mathlib

/-!
Shallow embedding of OpenOCD's NuttX RTOS-awareness backend
(`src/rtos/nuttx.c`) and proofs about it.

Target memory is modelled as a partial byte map: `none` at an address means
that a remote read touching that address fails (the Target Accessor reports
an error).  Multi-byte reads decode little-endian, as the transport does for
the 32-bit little-endian targets this backend supports.  Host-side allocation
(`malloc`/`calloc`/`realloc`) is modelled as always succeeding: the claims
under study concern remote-read failures, not host allocation failure.
Sizes and addresses are modelled as unbounded naturals; values read from the
target are reduced to their C width (`% 256` per byte) at the read boundary.
-/

set_option autoImplicit false

namespace Nuttx

/-- Target memory: a byte map; `none` means a read touching the address fails. -/
def TargetMem : Type := Nat → Option Nat

/-- `target_read_u8`: one byte, reduced to its 8-bit value. -/
def target_read_u8 (m : TargetMem) (addr : Nat) : Option Nat :=
  (m addr).map (· % 256)

/-- Little-endian decode of two bytes, as `le_to_h_u16` does. -/
def le16 (b0 b1 : Nat) : Nat := b0 % 256 + 256 * (b1 % 256)

/-- Little-endian decode of four bytes, as `le_to_h_u32` does. -/
def le32 (b0 b1 b2 b3 : Nat) : Nat :=
  b0 % 256 + 256 * (b1 % 256) + 65536 * (b2 % 256) + 16777216 * (b3 % 256)

/-- `target_read_u16`: two bytes, little-endian; fails if either byte fails. -/
def target_read_u16 (m : TargetMem) (addr : Nat) : Option Nat :=
  match m addr, m (addr + 1) with
  | some b0, some b1 => some (le16 b0 b1)
  | _, _ => none

/-- `target_read_u32`: four bytes, little-endian; fails if any byte fails. -/
def target_read_u32 (m : TargetMem) (addr : Nat) : Option Nat :=
  match m addr, m (addr + 1), m (addr + 2), m (addr + 3) with
  | some b0, some b1, some b2, some b3 => some (le32 b0 b1 b2 b3)
  | _, _, _, _ => none

/-- `target_read_buffer`: `len` raw bytes starting at `addr`; fails as a whole
if any byte fails (the bulk read either completes or errors). -/
def target_read_buffer (m : TargetMem) (addr len : Nat) : Option (List Nat) :=
  (List.range len).mapM (fun i => (m (addr + i)).map (· % 256))

/-- `NAME_SIZE` from the source. -/
def NAME_SIZE : Nat := 32

/-- `PTR_WIDTH` from the source: only 32-bit CPUs are supported. -/
def PTR_WIDTH : Nat := 4

/-- `struct tcbinfo`, after little-endian decoding of its seven packed
16-bit fields (the source stores raw bytes and applies `le_to_h_u16` at
each use site; decoding once at read time is equivalent). -/
structure Tcbinfo where
  pid_off : Nat
  state_off : Nat
  pri_off : Nat
  name_off : Nat
  regs_off : Nat
  basic_num : Nat
  total_num : Nat
deriving DecidableEq, Repr

/-- Little-endian 16-bit field at byte offset `i` of a byte list. -/
def le16at (bs : List Nat) (i : Nat) : Nat := le16 (bs.getD i 0) (bs.getD (i + 1) 0)

/-- Read `struct tcbinfo` (14 packed bytes) from the target, as the
`target_read_buffer` of `sizeof(tcbinfo)` at the `g_tcbinfo` symbol does. -/
def read_tcbinfo (m : TargetMem) (addr : Nat) : Option Tcbinfo :=
  match target_read_buffer m addr 14 with
  | none => none
  | some bs =>
    some ⟨le16at bs 0, le16at bs 2, le16at bs 4, le16at bs 6,
          le16at bs 8, le16at bs 10, le16at bs 12⟩

/-- Byte offset of the packed `regs_off` field inside `struct tcbinfo`:
`offsetof(struct tcbinfo, regs_off)` = 8, since the four 2-byte fields
`pid_off`, `state_off`, `pri_off`, `name_off` precede it. -/
def tcbinfo_regs_off_offset : Nat := 8

/-- The fixed state-name table `task_state_str` from the source. -/
def task_state_str : List String :=
  ["INVALID", "PENDING", "READYTORUN", "RUNNING", "INACTIVE", "WAIT_SEM",
   "WAIT_SIG", "WAIT_MQNOTEMPTY", "WAIT_MQNOTFULL", "WAIT_PAGEFILL", "STOPPED"]

/-- C-string view of a byte buffer: the characters before the first NUL.
The source copies `NAME_SIZE` bytes into a zeroed `NAME_SIZE + 1` buffer, so
the resulting C string is exactly the bytes up to the first zero. -/
def cstring (bs : List Nat) : String :=
  String.mk ((bs.takeWhile (fun b => b ≠ 0)).map (fun b => Char.ofNat (b % 256)))

/-- One entry of `rtos->thread_details` (`struct thread_detail`).
The C field `exists` is a Lean keyword; it is named `thread_exists` here. -/
structure ThreadDetail where
  threadid : Nat
  thread_exists : Bool
  extra_info_str : Option String
  thread_name_str : String
deriving DecidableEq, Repr

/-- The extra-info string built by the loop: `"pid:<pid>, <STATE>"` when the
state code is in range of `task_state_str` (`state < ARRAY_SIZE`), else no
string at all (`extra_info_str` stays NULL). -/
def extraOf (pid state : Nat) : Option String :=
  if h : state < task_state_str.length then
    some ("pid:" ++ toString pid ++ ", " ++ task_state_str.get ⟨state, h⟩)
  else none

/-- Decode one task control block at `tcbaddr`, exactly as the body of the
non-zero-bucket branch of the loop in `nuttx_update_threads` does:
read the 16-bit pid at `tcbaddr + pid_off` and the 8-bit state at
`tcbaddr + state_off` (either failure aborts); build the extra-info string
`"pid:<pid>, <STATE>"` only when the state code indexes `task_state_str`;
read a `NAME_SIZE`-byte name at `tcbaddr + name_off` when `name_off` is
nonzero (failure aborts), else use the literal name `"None"`. -/
def decodeTask (m : TargetMem) (info : Tcbinfo) (tcbaddr : Nat) : Option ThreadDetail :=
  match target_read_u16 m (tcbaddr + info.pid_off) with
  | none => none
  | some pid =>
    match target_read_u8 m (tcbaddr + info.state_off) with
    | none => none
    | some state =>
      let extra : Option String := extraOf pid state
      if info.name_off ≠ 0 then
        match target_read_buffer m (tcbaddr + info.name_off) NAME_SIZE with
        | none => none
        | some bs => some ⟨tcbaddr, true, extra, cstring bs⟩
      else
        some ⟨tcbaddr, true, extra, "None"⟩

/-- The four resolved symbol addresses, in `nuttx_symbol_list` order
(`g_readytorun`, `g_pidhash`, `g_npidhash`, `g_tcbinfo`). -/
structure Symbols where
  readytorun : Nat
  pidhash : Nat
  npidhash : Nat
  tcb_info : Nat
deriving DecidableEq, Repr

/-- Tag for the two stacking-selector functions in `nuttx_params_list`. -/
inductive StackSelector where
  | cortexm
  | riscv
deriving DecidableEq, Repr

/-- One row of `nuttx_params_list`; `select_stackinfo` is `none` when the
function pointer would be NULL (never the case in the static table). -/
structure NuttxParams where
  target_name : String
  select_stackinfo : Option StackSelector
deriving DecidableEq, Repr

/-- The static compatibility table `nuttx_params_list`. -/
def nuttx_params_list : List NuttxParams :=
  [⟨"cortex_m", some .cortexm⟩, ⟨"hla_target", some .cortexm⟩, ⟨"esp32c3", some .riscv⟩]

/-- The mutable parts of `struct rtos` this backend touches:
resolved symbols (NULL = `none`), the thread list with its exposed count,
the current-thread marker, and the per-binding `rtos_specific_params`. -/
structure RtosState where
  symbols : Option Symbols
  thread_details : List ThreadDetail
  thread_count : Nat
  current_thread : Nat
  rtos_specific_params : Option NuttxParams
deriving DecidableEq, Repr

/-- The snapshot a caller observes: the first `thread_count` entries of the
thread list (callers iterate `thread_details[0 .. thread_count)`). -/
def snapshot (r : RtosState) : List ThreadDetail :=
  r.thread_details.take r.thread_count

/-- Modelled from the spec: `rtos_free_threadlist` lives in the generic RTOS
layer (`src/rtos/rtos.c`), which is not among the sources here.  Per the
spec, the previous snapshot is fully discarded (freed) before a new one is
built, so the thread list becomes empty and the exposed count drops to zero. -/
def rtos_free_threadlist (r : RtosState) : RtosState :=
  { r with thread_details := [], thread_count := 0 }

/-- The bucket values the loop extracts from the raw `pidhash` byte buffer:
entry `i` is `le_to_h_u32(&pidhash[i * 4])`. -/
def bucketsOf (bs : List Nat) (n : Nat) : List Nat :=
  (List.range n).map (fun i =>
    le32 (bs.getD (4 * i) 0) (bs.getD (4 * i + 1) 0)
         (bs.getD (4 * i + 2) 0) (bs.getD (4 * i + 3) 0))

/-- The bucket walk of `nuttx_update_threads`: zero buckets are skipped; a
non-zero bucket is decoded and appended; a decode failure aborts the walk.
Returns the records built before the abort together with the success flag
(in the C code the partial records stay in `rtos->thread_details`, while
`rtos->thread_count` is only written on full success). -/
def walkBuckets (m : TargetMem) (info : Tcbinfo) : List Nat → List ThreadDetail × Bool
  | [] => ([], true)
  | t :: rest =>
    if t ≠ 0 then
      match decodeTask m info t with
      | none => ([], false)
      | some td =>
        let w := walkBuckets m info rest
        (td :: w.1, w.2)
    else walkBuckets m info rest

/-- `nuttx_update_threads`.  Returns the success flag (`ERROR_OK` = `true`)
and the updated rtos state.  Mirrors the source step by step: missing
symbols fail immediately (before the free); the old list is freed; then
`g_npidhash`, `g_pidhash`, the bucket buffer, `g_tcbinfo` and `g_readytorun`
are read in that order, each failure aborting; then the buckets are walked;
`rtos->thread_count` is assigned only on full success. -/
def nuttx_update_threads (m : TargetMem) (r : RtosState) : Bool × RtosState :=
  match r.symbols with
  | none => (false, r)
  | some syms =>
    let r1 := rtos_free_threadlist r
    match target_read_u32 m syms.npidhash with
    | none => (false, r1)
    | some npidhash =>
      match target_read_u32 m syms.pidhash with
      | none => (false, r1)
      | some pidhashaddr =>
        match target_read_buffer m pidhashaddr (PTR_WIDTH * npidhash) with
        | none => (false, r1)
        | some pidhash =>
          match read_tcbinfo m syms.tcb_info with
          | none => (false, r1)
          | some tcbinfo =>
            match target_read_u32 m syms.readytorun with
            | none => (false, r1)
            | some current_thread =>
              let r2 := { r1 with current_thread := current_thread }
              let w := walkBuckets m tcbinfo (bucketsOf pidhash npidhash)
              if w.2 then
                (true, { r2 with thread_details := w.1, thread_count := w.1.length })
              else
                (false, { r2 with thread_details := w.1 })

/-- `nuttx_detect_rtos`: true iff the symbol table is present and both the
`g_readytorun` and `g_pidhash` anchors resolved to non-zero addresses. -/
def nuttx_detect_rtos (symbols : Option Symbols) : Bool :=
  match symbols with
  | none => false
  | some s => s.readytorun != 0 && s.pidhash != 0

/-- `nuttx_create`: scan `nuttx_params_list` for the first row whose
`target_name` matches; no match returns `JIM_ERR` (`false`) and leaves the
rtos state untouched; a match stores the row in `rtos_specific_params`. -/
def nuttx_create (name : String) (r : RtosState) : Bool × RtosState :=
  match nuttx_params_list.find? (fun p => p.target_name == name) with
  | none => (false, r)
  | some p => (true, { r with rtos_specific_params := some p })

/-- The per-target state the register paths consult: the target's memory and
the armv7m facts `cortexm_hasfpu` tests (`is_armv7m(target_to_armv7m(t))` and
`fp_feature == FPV4_SP`). -/
structure TargetState where
  mem : TargetMem
  is_armv7m : Bool
  fp_feature_fpv4_sp : Bool

/-- The CPACR address `FPU_CPACR` (armv7m system control block). -/
def FPU_CPACR : Nat := 0xE000ED88

/-- `cortexm_hasfpu`: false unless the core is armv7m with the FPV4_SP
feature; then read CPACR — a failed read logs and returns false (no error is
propagated); otherwise true iff the CP10/CP11 enable bits are set. -/
def cortexm_hasfpu (t : TargetState) : Bool :=
  if !t.is_armv7m || !t.fp_feature_fpv4_sp then false
  else
    match target_read_u32 t.mem FPU_CPACR with
    | none => false
    | some cpacr => cpacr &&& 0x00F00000 != 0

/-- The three static stacking descriptors referenced by this backend
(`nuttx_stacking_cortex_m`, `nuttx_stacking_cortex_m_fpu`,
`nuttx_riscv_stacking`), as opaque tags: their contents live in
`rtos_nuttx_stackings.c`, outside this file's claims. -/
inductive StackingKind where
  | cortexM
  | cortexMFpu
  | riscv
deriving DecidableEq, Repr

/-- `cortexm_select_stackinfo`. -/
def cortexm_select_stackinfo (t : TargetState) : StackingKind :=
  if cortexm_hasfpu t then .cortexMFpu else .cortexM

/-- `riscv_select_stackinfo`: fixed descriptor, no runtime query. -/
def riscv_select_stackinfo (_t : TargetState) : StackingKind :=
  .riscv

/-- Dispatch a `select_stackinfo` function-pointer tag. -/
def run_select (s : StackSelector) (t : TargetState) : StackingKind :=
  match s with
  | .cortexm => cortexm_select_stackinfo t
  | .riscv => riscv_select_stackinfo t

/-- Outcome of `nuttx_get_thread_reg_list`:
`fail` = `ERROR_FAIL` returned; `live` = delegated to
`nuttx_getreg_current_thread`, i.e. the live register cache, with no target
memory access by this backend; `stack s a` = delegated to
`rtos_generic_stack_read` with stacking descriptor `s` and saved-register
block address `a`; `undef` marks a NULL dereference in the C code
(`rtos_specific_params` or `symbols` NULL on the stack path). -/
inductive RegListResult where
  | fail
  | undef
  | live
  | stack (stacking : StackingKind) (regsaddr : Nat)
deriving DecidableEq, Repr

/-- `nuttx_getregs_fromstack`: select the stacking via the binding's
selector (a NULL selector fails), read the 16-bit `regs_off` field at
`g_tcbinfo + offsetof(tcbinfo, regs_off)`, read the 32-bit saved-register
block pointer at `thread_id + regs_off` (either read failure fails), then
unpack from the stack. -/
def nuttx_getregs_fromstack (t : TargetState) (r : RtosState) (thread_id : Nat) :
    RegListResult :=
  match r.rtos_specific_params with
  | none => .undef
  | some priv =>
    match priv.select_stackinfo with
    | none => .fail
    | some sel =>
      let stacking := run_select sel t
      match r.symbols with
      | none => .undef
      | some syms =>
        match target_read_u16 t.mem (syms.tcb_info + tcbinfo_regs_off_offset) with
        | none => .fail
        | some xcpreg_off =>
          match target_read_u32 t.mem (thread_id + xcpreg_off) with
          | none => .fail
          | some regsaddr => .stack stacking regsaddr

/-- `nuttx_get_thread_reg_list`: a NULL `rtos` fails immediately; the
current thread goes to the live register cache; every other thread goes to
the stack-unpacking path. -/
def nuttx_get_thread_reg_list (t : TargetState) (rtos : Option RtosState)
    (thread_id : Nat) : RegListResult :=
  match rtos with
  | none => .fail
  | some r =>
    if thread_id = r.current_thread then .live
    else nuttx_getregs_fromstack t r thread_id

/-! ### Helper lemmas -/

theorem walkBuckets_nil (m : TargetMem) (info : Tcbinfo) :
    walkBuckets m info [] = ([], true) := rfl

theorem walkBuckets_ok_iff (m : TargetMem) (info : Tcbinfo) (l : List Nat) :
    (walkBuckets m info l).2 = true ↔
      ∀ t ∈ l, t ≠ 0 → (decodeTask m info t).isSome := by
  induction l with
  | nil => simp [walkBuckets]
  | cons t rest ih =>
    by_cases ht : t = 0
    · subst ht
      simp only [walkBuckets, ne_eq, not_true_eq_false, if_false, ih]
      constructor
      · intro h u hu hne
        rcases List.mem_cons.mp hu with h0 | h0
        · exact absurd h0 hne
        · exact h u h0 hne
      · intro h u hu hne
        exact h u (List.mem_cons_of_mem _ hu) hne
    · simp only [walkBuckets, ne_eq, ht, not_false_eq_true, if_true]
      cases hd : decodeTask m info t with
      | none =>
        simp only [Bool.false_eq_true, false_iff]
        intro h
        have := h t (List.mem_cons_self t rest) ht
        rw [hd] at this
        simp at this
      | some td =>
        simp only [ih]
        constructor
        · intro h u hu hne
          rcases List.mem_cons.mp hu with h0 | h0
          · subst h0; rw [hd]; simp
          · exact h u h0 hne
        · intro h u hu hne
          exact h u (List.mem_cons_of_mem _ hu) hne

theorem walkBuckets_fst_of_ok (m : TargetMem) (info : Tcbinfo) (l : List Nat)
    (h : (walkBuckets m info l).2 = true) :
    (walkBuckets m info l).1 =
      l.filterMap (fun t => if t = 0 then none else decodeTask m info t) := by
  induction l with
  | nil => simp [walkBuckets]
  | cons t rest ih =>
    by_cases ht : t = 0
    · subst ht
      simp only [walkBuckets, ne_eq, not_true_eq_false, if_false] at h ⊢
      rw [List.filterMap_cons]
      simpa using ih h
    · simp only [walkBuckets, ne_eq, ht, not_false_eq_true, if_true] at h ⊢
      cases hd : decodeTask m info t with
      | none => rw [hd] at h; simp at h
      | some td =>
        rw [hd] at h
        simp only at h
        rw [List.filterMap_cons]
        simp only [ht, if_false, hd]
        simpa using ih h

/-- On full success, `nuttx_update_threads` reduces to the walk result. -/
theorem nuttx_update_threads_eq (m : TargetMem) (r : RtosState) (syms : Symbols)
    (n a c : Nat) (bs : List Nat) (info : Tcbinfo)
    (hs : r.symbols = some syms)
    (hn : target_read_u32 m syms.npidhash = some n)
    (ha : target_read_u32 m syms.pidhash = some a)
    (hb : target_read_buffer m a (PTR_WIDTH * n) = some bs)
    (hi : read_tcbinfo m syms.tcb_info = some info)
    (hc : target_read_u32 m syms.readytorun = some c) :
    nuttx_update_threads m r =
      (let r2 := { rtos_free_threadlist r with current_thread := c }
       let w := walkBuckets m info (bucketsOf bs n)
       if w.2 then
         (true, { r2 with thread_details := w.1, thread_count := w.1.length })
       else
         (false, { r2 with thread_details := w.1 })) := by
  simp only [nuttx_update_threads, hs, hn, ha, hb, hi, hc]

/-- Every failing run of `nuttx_update_threads` (with symbols present)
leaves the exposed thread count at zero. -/
theorem nuttx_update_threads_fail_count (m : TargetMem) (r : RtosState)
    (syms : Symbols) (hs : r.symbols = some syms)
    (hfail : (nuttx_update_threads m r).1 = false) :
    (nuttx_update_threads m r).2.thread_count = 0 := by
  cases hn : target_read_u32 m syms.npidhash with
  | none => simp [nuttx_update_threads, hs, hn, rtos_free_threadlist]
  | some n =>
    cases ha : target_read_u32 m syms.pidhash with
    | none => simp [nuttx_update_threads, hs, hn, ha, rtos_free_threadlist]
    | some a =>
      cases hb : target_read_buffer m a (PTR_WIDTH * n) with
      | none => simp [nuttx_update_threads, hs, hn, ha, hb, rtos_free_threadlist]
      | some bs =>
        cases hi : read_tcbinfo m syms.tcb_info with
        | none => simp [nuttx_update_threads, hs, hn, ha, hb, hi, rtos_free_threadlist]
        | some info =>
          cases hc : target_read_u32 m syms.readytorun with
          | none => simp [nuttx_update_threads, hs, hn, ha, hb, hi, hc, rtos_free_threadlist]
          | some c =>
            by_cases hw : (walkBuckets m info (bucketsOf bs n)).2 = true
            · exfalso
              simp [nuttx_update_threads, hs, hn, ha, hb, hi, hc, hw] at hfail
            · simp only [Bool.not_eq_true] at hw
              simp [nuttx_update_threads, hs, hn, ha, hb, hi, hc, hw,
                rtos_free_threadlist]

/-! ### A concrete synthetic target image, used by the witnesses

Symbols: `g_readytorun` at 100, `g_pidhash` at 104, `g_npidhash` at 108,
`g_tcbinfo` at 112.  The hash table has 3 buckets at address 200: control
blocks at 8192 and 12288 and one empty slot.  The layout descriptor puts the
pid at offset 4, the state at 6, the name at 8, the saved registers pointer
at 12. -/

def hdrBytes : List Nat :=
  [0, 32, 0, 0, 200, 0, 0, 0, 3, 0, 0, 0, 4, 0, 6, 0, 7, 0, 8, 0, 12, 0, 10, 0, 17, 0]

def bucketBytes : List Nat := [0, 32, 0, 0, 0, 0, 0, 0, 0, 48, 0, 0]

def tcb1Bytes : List Nat :=
  [0, 0, 0, 0, 5, 0, 3, 0, 105, 100, 108, 101] ++ List.replicate 28 0

def tcb2Bytes : List Nat :=
  [0, 0, 0, 0, 7, 0, 1, 0, 108, 111, 103] ++ List.replicate 29 0

def exMem : TargetMem := fun a =>
  if 100 ≤ a ∧ a < 126 then some (hdrBytes.getD (a - 100) 0)
  else if 200 ≤ a ∧ a < 212 then some (bucketBytes.getD (a - 200) 0)
  else if 8192 ≤ a ∧ a < 8232 then some (tcb1Bytes.getD (a - 8192) 0)
  else if 12288 ≤ a ∧ a < 12328 then some (tcb2Bytes.getD (a - 12288) 0)
  else none

def exSyms : Symbols := ⟨100, 104, 108, 112⟩

def exTcbinfo : Tcbinfo := ⟨4, 6, 7, 8, 12, 10, 17⟩

/-- The same layout, but with `name_off = 0` (name field absent). -/
def exTcbinfoNoName : Tcbinfo := ⟨4, 6, 7, 0, 12, 10, 17⟩

def exRtos : RtosState := ⟨some exSyms, [], 0, 0, some ⟨"cortex_m", some .cortexm⟩⟩

/-- `exMem` with the state byte of the second non-zero bucket's control
block unreadable. -/
def exMemFail : TargetMem := fun a => if a = 12294 then none else exMem a

/-- `exMem` with the hash-table size reading as zero. -/
def exMemEmpty : TargetMem := fun a => if a = 108 then some 0 else exMem a

/-- A memory exposing only a CPACR register with CP10/CP11 enabled. -/
def exMemCpacr : TargetMem := fun a =>
  if FPU_CPACR ≤ a ∧ a < FPU_CPACR + 4 then
    some (if a = FPU_CPACR + 2 then 0xF0 else 0)
  else none

def exTarget : TargetState := ⟨exMem, true, true⟩

def exTargetFpu : TargetState := ⟨exMemCpacr, true, true⟩

/-! ### Claim theorems -/

/-- C4: for every symbol-resolution state, `nuttx_detect_rtos` returns true
iff the symbol table is present and both anchor symbols — the ready-to-run
list head and the hash-table head — resolved to non-zero addresses.  The
function is total and pure (it returns a `Bool` for every input and touches
no state), so detection never errors and has no side effects. -/
theorem nuttx_detect_rtos_iff (symbols : Option Symbols) :
    nuttx_detect_rtos symbols = true ↔
      ∃ s, symbols = some s ∧ s.readytorun ≠ 0 ∧ s.pidhash ≠ 0 := by
  cases symbols with
  | none => simp [nuttx_detect_rtos]
  | some s => simp [nuttx_detect_rtos]

/-- C8: the Cortex-style selector picks the FPU-extended descriptor exactly
when the core is armv7m with the FPV4_SP feature and the CPACR read succeeds
with the CP10/CP11 enable bits set; a failed CPACR read yields the base
descriptor.  The selector returns a plain descriptor (its type has no error
outcome), so no error from that read is ever propagated. -/
theorem cortexm_stacking_selection (t : TargetState) :
    (cortexm_select_stackinfo t = .cortexMFpu ↔
      t.is_armv7m = true ∧ t.fp_feature_fpv4_sp = true ∧
        ∃ v, target_read_u32 t.mem FPU_CPACR = some v ∧ v &&& 0x00F00000 ≠ 0) ∧
    (target_read_u32 t.mem FPU_CPACR = none →
      cortexm_select_stackinfo t = .cortexM) := by
  constructor
  · unfold cortexm_select_stackinfo cortexm_hasfpu
    cases ha : t.is_armv7m with
    | false => simp [ha]
    | true =>
      cases hf : t.fp_feature_fpv4_sp with
      | false => simp [ha, hf]
      | true =>
        cases hr : target_read_u32 t.mem FPU_CPACR with
        | none => simp [ha, hf, hr]
        | some v =>
          by_cases hv : v &&& 0x00F00000 = 0
          · simp [ha, hf, hr, hv]
          · simp [ha, hf, hr, hv]
  · intro hr
    unfold cortexm_select_stackinfo cortexm_hasfpu
    cases ha : t.is_armv7m with
    | false => simp [ha]
    | true =>
      cases hf : t.fp_feature_fpv4_sp with
      | false => simp [ha, hf]
      | true => simp [ha, hf, hr]

/-- C8 witness: on a target whose CPACR reads as `0x00F00000`, the selector
picks the FPU descriptor; on one whose CPACR read fails, the base one. -/
theorem cortexm_stacking_selection_witness :
    cortexm_select_stackinfo exTargetFpu = .cortexMFpu ∧
    cortexm_select_stackinfo exTarget = .cortexM := by
  constructor
  · exact (cortexm_stacking_selection exTargetFpu).1.mpr
      ⟨rfl, rfl, 0x00F00000, by decide, by decide⟩
  · exact (cortexm_stacking_selection exTarget).2 (by decide)

/-- C9: `nuttx_create` with a target name matching no row of
`nuttx_params_list` fails and leaves the rtos state (in particular
`rtos_specific_params`) untouched; with a recognized name it succeeds and
attaches the first matching row as the binding's context. -/
theorem nuttx_create_policy (name : String) (r : RtosState) :
    ((∀ p ∈ nuttx_params_list, p.target_name ≠ name) →
        nuttx_create name r = (false, r)) ∧
    (∀ p, nuttx_params_list.find? (fun q => q.target_name == name) = some p →
        nuttx_create name r = (true, { r with rtos_specific_params := some p }) ∧
        p.target_name = name ∧ p ∈ nuttx_params_list) := by
  constructor
  · intro hnone
    have hfind : nuttx_params_list.find? (fun q => q.target_name == name) = none := by
      rw [List.find?_eq_none]
      intro p hp
      simpa using hnone p hp
    simp [nuttx_create, hfind]
  · intro p hp
    refine ⟨by simp [nuttx_create, hp], ?_, List.mem_of_find?_eq_some hp⟩
    have := List.find?_some hp
    simpa using this

/-- C9 witness: the unknown name `"nonesuch"` fails and leaves the state
unchanged; `"cortex_m"` attaches the Cortex-M row. -/
theorem nuttx_create_policy_witness :
    nuttx_create "nonesuch" exRtos = (false, exRtos) ∧
    nuttx_create "cortex_m" exRtos =
      (true, { exRtos with rtos_specific_params := some ⟨"cortex_m", some .cortexm⟩ }) := by
  constructor
  · exact (nuttx_create_policy "nonesuch" exRtos).1 (by decide)
  · exact ((nuttx_create_policy "cortex_m" exRtos).2 ⟨"cortex_m", some .cortexm⟩ rfl).1

/-- C10: a NULL `rtos` argument makes `nuttx_get_thread_reg_list` return
`ERROR_FAIL` for every thread id.  The equation holds for every target
state `t`, so the result is independent of target memory and of any binding
state: no read of either occurs. -/
theorem reg_list_null_rtos (t : TargetState) (tid : Nat) :
    nuttx_get_thread_reg_list t none tid = .fail := rfl

/-- C1: with symbols present and every remote read succeeding, a refresh
produces exactly one Task Record per non-zero bucket entry, in bucket order
(zero entries skipped), each record obtained by `decodeTask` — which sets
`threadid` to the bucket's little-endian 32-bit control-block address and
decodes pid, state label and name from the bytes at that control block using
the runtime-read layout descriptor's offsets.  The exposed count equals the
number of records and the current-thread marker is installed. -/
theorem nuttx_update_threads_bucket_decode (m : TargetMem) (r : RtosState)
    (syms : Symbols) (n a c : Nat) (bs : List Nat) (info : Tcbinfo)
    (hs : r.symbols = some syms)
    (hn : target_read_u32 m syms.npidhash = some n)
    (ha : target_read_u32 m syms.pidhash = some a)
    (hb : target_read_buffer m a (PTR_WIDTH * n) = some bs)
    (hi : read_tcbinfo m syms.tcb_info = some info)
    (hc : target_read_u32 m syms.readytorun = some c)
    (hok : ∀ t ∈ bucketsOf bs n, t ≠ 0 → (decodeTask m info t).isSome) :
    nuttx_update_threads m r =
      (true,
        { symbols := some syms
          thread_details := (bucketsOf bs n).filterMap
            (fun t => if t = 0 then none else decodeTask m info t)
          thread_count := ((bucketsOf bs n).filterMap
            (fun t => if t = 0 then none else decodeTask m info t)).length
          current_thread := c
          rtos_specific_params := r.rtos_specific_params }) := by
  have hw2 : (walkBuckets m info (bucketsOf bs n)).2 = true :=
    (walkBuckets_ok_iff m info (bucketsOf bs n)).mpr hok
  have hw1 := walkBuckets_fst_of_ok m info (bucketsOf bs n) hw2
  rw [nuttx_update_threads_eq m r syms n a c bs info hs hn ha hb hi hc]
  simp [hw2, hw1, rtos_free_threadlist, hs]

/-- C1 witness: the synthetic image with 3 buckets (two non-zero, one zero)
decodes to exactly the two records, in bucket order. -/
theorem nuttx_update_threads_bucket_decode_witness :
    nuttx_update_threads exMem exRtos =
      (true,
        { symbols := some exSyms
          thread_details := (bucketsOf bucketBytes 3).filterMap
            (fun t => if t = 0 then none else decodeTask exMem exTcbinfo t)
          thread_count := ((bucketsOf bucketBytes 3).filterMap
            (fun t => if t = 0 then none else decodeTask exMem exTcbinfo t)).length
          current_thread := 8192
          rtos_specific_params := exRtos.rtos_specific_params }) :=
  nuttx_update_threads_bucket_decode exMem exRtos exSyms 3 200 8192 bucketBytes
    exTcbinfo rfl (by decide) (by decide) (by decide) (by decide) (by decide)
    (by decide)

/-- C2: with symbols present, a refresh that fails leaves the caller-visible
snapshot empty (the exposed thread count stays at the zero that discarding
the previous snapshot left), so no record decoded before the failure — and
no record of the previous snapshot — is exposed; moreover, if every
preliminary read succeeds but some non-zero bucket's control block fails to
decode (e.g. its state byte is unreadable), the refresh fails as a whole. -/
theorem nuttx_update_threads_failfast (m : TargetMem) (r : RtosState)
    (syms : Symbols) (hs : r.symbols = some syms) :
    ((nuttx_update_threads m r).1 = false →
      snapshot (nuttx_update_threads m r).2 = [] ∧
      (nuttx_update_threads m r).2.thread_count = 0) ∧
    (∀ n a c bs info,
      target_read_u32 m syms.npidhash = some n →
      target_read_u32 m syms.pidhash = some a →
      target_read_buffer m a (PTR_WIDTH * n) = some bs →
      read_tcbinfo m syms.tcb_info = some info →
      target_read_u32 m syms.readytorun = some c →
      (∃ t ∈ bucketsOf bs n, t ≠ 0 ∧ decodeTask m info t = none) →
      (nuttx_update_threads m r).1 = false) := by
  constructor
  · intro hfail
    have hcount := nuttx_update_threads_fail_count m r syms hs hfail
    exact ⟨by simp [snapshot, hcount], hcount⟩
  · intro n a c bs info hn ha hb hi hc hbad
    have hw2 : (walkBuckets m info (bucketsOf bs n)).2 ≠ true := by
      intro hw
      have hall := (walkBuckets_ok_iff m info (bucketsOf bs n)).mp hw
      rcases hbad with ⟨t, ht, hne, hdec⟩
      have := hall t ht hne
      rw [hdec] at this
      simp at this
    rw [nuttx_update_threads_eq m r syms n a c bs info hs hn ha hb hi hc]
    simp only [Bool.not_eq_true] at hw2
    simp [hw2]

/-- C2 witness: on the synthetic image whose second non-zero bucket has an
unreadable state byte, the refresh fails and the snapshot is empty. -/
theorem nuttx_update_threads_failfast_witness :
    (nuttx_update_threads exMemFail exRtos).1 = false ∧
    snapshot (nuttx_update_threads exMemFail exRtos).2 = [] := by
  have h := nuttx_update_threads_failfast exMemFail exRtos exSyms rfl
  have hfail : (nuttx_update_threads exMemFail exRtos).1 = false :=
    h.2 3 200 8192 bucketBytes exTcbinfo (by decide) (by decide) (by decide)
      (by decide) (by decide) ⟨12288, by decide, by decide, by decide⟩
  exact ⟨hfail, (h.1 hfail).1⟩

/-- C3: if the hash-table size reads as 0 (and the other preliminary reads
succeed), the refresh succeeds with an empty snapshot — zero Task Records —
and the current-thread marker read from `g_readytorun` is still installed. -/
theorem nuttx_update_threads_empty_registry (m : TargetMem) (r : RtosState)
    (syms : Symbols) (a c : Nat) (info : Tcbinfo)
    (hs : r.symbols = some syms)
    (hn : target_read_u32 m syms.npidhash = some 0)
    (ha : target_read_u32 m syms.pidhash = some a)
    (hi : read_tcbinfo m syms.tcb_info = some info)
    (hc : target_read_u32 m syms.readytorun = some c) :
    nuttx_update_threads m r =
      (true,
        { symbols := some syms
          thread_details := []
          thread_count := 0
          current_thread := c
          rtos_specific_params := r.rtos_specific_params }) := by
  have hb : target_read_buffer m a (PTR_WIDTH * 0) = some [] := rfl
  have h := nuttx_update_threads_bucket_decode m r syms 0 a c [] info hs hn ha hb hi hc
    (by intro t ht; simp [bucketsOf] at ht)
  simpa [bucketsOf] using h

/-- C3 witness: on the synthetic image with `g_npidhash = 0`, the refresh
succeeds, the snapshot is empty, and the marker 8192 is installed. -/
theorem nuttx_update_threads_empty_registry_witness :
    nuttx_update_threads exMemEmpty exRtos =
      (true,
        { symbols := some exSyms
          thread_details := []
          thread_count := 0
          current_thread := 8192
          rtos_specific_params := exRtos.rtos_specific_params }) :=
  nuttx_update_threads_empty_registry exMemEmpty exRtos exSyms 200 8192 exTcbinfo
    rfl (by decide) (by decide) (by decide) (by decide)

/-- Shape of `decodeTask` once pid and state have been read. -/
theorem decodeTask_eq (m : TargetMem) (info : Tcbinfo) (t pid state : Nat)
    (hp : target_read_u16 m (t + info.pid_off) = some pid)
    (hst : target_read_u8 m (t + info.state_off) = some state) :
    decodeTask m info t =
      (if info.name_off ≠ 0 then
        match target_read_buffer m (t + info.name_off) NAME_SIZE with
        | none => none
        | some bs => some ⟨t, true, extraOf pid state, cstring bs⟩
      else some ⟨t, true, extraOf pid state, "None"⟩) := by
  simp only [decodeTask, hp, hst]

theorem getregs_fromstack_ne_live (t : TargetState) (r : RtosState) (tid : Nat) :
    nuttx_getregs_fromstack t r tid ≠ .live := by
  unfold nuttx_getregs_fromstack
  rcases hpv : r.rtos_specific_params with _ | priv
  · simp
  · rcases hsel : priv.select_stackinfo with _ | sel
    · simp [hsel]
    · rcases hsyms : r.symbols with _ | syms
      · simp [hsel, hsyms]
      · rcases hoff : target_read_u16 t.mem (syms.tcb_info + tcbinfo_regs_off_offset)
          with _ | off
        · simp [hsel, hsyms, hoff]
        · rcases hread : target_read_u32 t.mem (tid + off) with _ | ra
          · simp [hsel, hsyms, hoff, hread]
          · simp [hsel, hsyms, hoff, hread]

/-- C5: decoding a task uses the literal name `"None"` whenever the layout
descriptor's `name_off` is zero, no matter what target memory holds; with a
nonzero `name_off` the name is the C string of the fixed `NAME_SIZE`-byte
buffer read at `tcbaddr + name_off`, a failure of that read makes the
task's decode fail, and a failed decode of any non-zero bucket makes the
whole refresh fail. -/
theorem decode_name_policy (m : TargetMem) (info : Tcbinfo) (t : Nat) :
    (info.name_off = 0 →
      ∀ td, decodeTask m info t = some td → td.thread_name_str = "None") ∧
    (info.name_off ≠ 0 →
      ∀ bs, target_read_buffer m (t + info.name_off) NAME_SIZE = some bs →
        ∀ td, decodeTask m info t = some td → td.thread_name_str = cstring bs) ∧
    (info.name_off ≠ 0 →
      target_read_buffer m (t + info.name_off) NAME_SIZE = none →
        decodeTask m info t = none) ∧
    (∀ r syms n a c hashbs,
      r.symbols = some syms →
      target_read_u32 m syms.npidhash = some n →
      target_read_u32 m syms.pidhash = some a →
      target_read_buffer m a (PTR_WIDTH * n) = some hashbs →
      read_tcbinfo m syms.tcb_info = some info →
      target_read_u32 m syms.readytorun = some c →
      t ∈ bucketsOf hashbs n → t ≠ 0 → decodeTask m info t = none →
      (nuttx_update_threads m r).1 = false) := by
  refine ⟨?_, ?_, ?_, ?_⟩
  · intro h0 td htd
    cases hp : target_read_u16 m (t + info.pid_off) with
    | none => simp [decodeTask, hp] at htd
    | some pid =>
      cases hst : target_read_u8 m (t + info.state_off) with
      | none => simp [decodeTask, hp, hst] at htd
      | some state =>
        rw [decodeTask_eq m info t pid state hp hst] at htd
        simp only [h0, ne_eq, not_true_eq_false, if_false, Option.some.injEq] at htd
        rw [← htd]
  · intro h0 bs hb td htd
    cases hp : target_read_u16 m (t + info.pid_off) with
    | none => simp [decodeTask, hp] at htd
    | some pid =>
      cases hst : target_read_u8 m (t + info.state_off) with
      | none => simp [decodeTask, hp, hst] at htd
      | some state =>
        rw [decodeTask_eq m info t pid state hp hst] at htd
        simp only [h0, ne_eq, not_false_eq_true, if_true, hb,
          Option.some.injEq] at htd
        rw [← htd]
  · intro h0 hb
    cases hp : target_read_u16 m (t + info.pid_off) with
    | none => simp [decodeTask, hp]
    | some pid =>
      cases hst : target_read_u8 m (t + info.state_off) with
      | none => simp [decodeTask, hp, hst]
      | some state =>
        rw [decodeTask_eq m info t pid state hp hst]
        simp [h0, hb]
  · intro r syms n a c hashbs hs hn ha hb hi hc hmem hne hdec
    have hw2 : (walkBuckets m info (bucketsOf hashbs n)).2 ≠ true := by
      intro hw
      have hall := (walkBuckets_ok_iff m info (bucketsOf hashbs n)).mp hw
      have := hall t hmem hne
      rw [hdec] at this
      simp at this
    rw [nuttx_update_threads_eq m r syms n a c hashbs info hs hn ha hb hi hc]
    simp only [Bool.not_eq_true] at hw2
    simp [hw2]

/-- C5 witness: with the `name_off = 0` layout, the control block at 8192
(whose memory holds the name `"idle"`) decodes with name `"None"`. -/
theorem decode_name_policy_witness :
    decodeTask exMem exTcbinfoNoName 8192 =
      some ⟨8192, true, some "pid:5, RUNNING", "None"⟩ ∧
    (⟨8192, true, some "pid:5, RUNNING", "None"⟩ : ThreadDetail).thread_name_str =
      "None" := by
  have h1 : decodeTask exMem exTcbinfoNoName 8192 =
      some ⟨8192, true, some "pid:5, RUNNING", "None"⟩ := by decide
  exact ⟨h1, (decode_name_policy exMem exTcbinfoNoName 8192).1 rfl _ h1⟩

/-- C6: once pid and state are read, a decoded record carries the info
string `"pid:<pid>, <STATE>"` from the fixed 11-entry table when the state
code is in range; an out-of-range state code yields no info string; and the
decode fails only for a name-read failure (never because of the state
code). -/
theorem decode_state_policy (m : TargetMem) (info : Tcbinfo) (t pid state : Nat)
    (hp : target_read_u16 m (t + info.pid_off) = some pid)
    (hst : target_read_u8 m (t + info.state_off) = some state) :
    (∀ h : state < task_state_str.length, ∀ td, decodeTask m info t = some td →
      td.extra_info_str =
        some ("pid:" ++ toString pid ++ ", " ++ task_state_str.get ⟨state, h⟩)) ∧
    (task_state_str.length ≤ state → ∀ td, decodeTask m info t = some td →
      td.extra_info_str = none) ∧
    (decodeTask m info t = none ↔
      info.name_off ≠ 0 ∧
        target_read_buffer m (t + info.name_off) NAME_SIZE = none) := by
  refine ⟨?_, ?_, ?_⟩
  · intro h td htd
    rw [decodeTask_eq m info t pid state hp hst] at htd
    by_cases h0 : info.name_off = 0
    · simp only [h0, ne_eq, not_true_eq_false, if_false, Option.some.injEq] at htd
      rw [← htd]
      simp only [extraOf]
      rw [dif_pos h]
    · simp only [h0, ne_eq, not_false_eq_true, if_true] at htd
      cases hb : target_read_buffer m (t + info.name_off) NAME_SIZE with
      | none => rw [hb] at htd; simp at htd
      | some bs =>
        rw [hb] at htd
        simp only [Option.some.injEq] at htd
        rw [← htd]
        simp only [extraOf]
        rw [dif_pos h]
  · intro h td htd
    rw [decodeTask_eq m info t pid state hp hst] at htd
    by_cases h0 : info.name_off = 0
    · simp only [h0, ne_eq, not_true_eq_false, if_false, Option.some.injEq] at htd
      rw [← htd]
      simp only [extraOf]
      rw [dif_neg (not_lt.mpr h)]
    · simp only [h0, ne_eq, not_false_eq_true, if_true] at htd
      cases hb : target_read_buffer m (t + info.name_off) NAME_SIZE with
      | none => rw [hb] at htd; simp at htd
      | some bs =>
        rw [hb] at htd
        simp only [Option.some.injEq] at htd
        rw [← htd]
        simp only [extraOf]
        rw [dif_neg (not_lt.mpr h)]
  · rw [decodeTask_eq m info t pid state hp hst]
    by_cases h0 : info.name_off = 0
    · simp [h0]
    · cases hb : target_read_buffer m (t + info.name_off) NAME_SIZE with
      | none => simp [h0, hb]
      | some bs => simp [h0, hb]

/-- C6 witness: the control block at 8192 (pid 5, state 3) decodes with the
info string `"pid:5, RUNNING"`, the table entry for state 3. -/
theorem decode_state_policy_witness :
    decodeTask exMem exTcbinfo 8192 =
      some ⟨8192, true, some "pid:5, RUNNING", "idle"⟩ ∧
    (⟨8192, true, some "pid:5, RUNNING", "idle"⟩ : ThreadDetail).extra_info_str =
      some ("pid:" ++ toString 5 ++ ", " ++ "RUNNING") := by
  have h1 : decodeTask exMem exTcbinfo 8192 =
      some ⟨8192, true, some "pid:5, RUNNING", "idle"⟩ := by decide
  have h2 := (decode_state_policy exMem exTcbinfo 8192 5 3 (by decide) (by decide)).1
    (by decide) _ h1
  exact ⟨h1, h2.trans (by decide)⟩

/-- C7: `nuttx_get_thread_reg_list` routes purely by thread identity.  The
current thread is served from the live register cache (`live`) for every
target memory, so no stack-unpacking read is issued; any other thread never
reaches the live path, and — with a bound selector and symbols — is served
by unpacking at the saved-register-block pointer read at
`thread_id + regs_off`, where `regs_off` was read from the layout
descriptor, using the stacking descriptor the binding's selector picks. -/
theorem reg_list_routing (t : TargetState) (r : RtosState) (tid : Nat) :
    (tid = r.current_thread →
      nuttx_get_thread_reg_list t (some r) tid = .live) ∧
    (tid ≠ r.current_thread →
      nuttx_get_thread_reg_list t (some r) tid ≠ .live ∧
      (∀ priv sel syms off regsaddr,
        r.rtos_specific_params = some priv →
        priv.select_stackinfo = some sel →
        r.symbols = some syms →
        target_read_u16 t.mem (syms.tcb_info + tcbinfo_regs_off_offset) = some off →
        target_read_u32 t.mem (tid + off) = some regsaddr →
        nuttx_get_thread_reg_list t (some r) tid =
          .stack (run_select sel t) regsaddr)) := by
  constructor
  · intro h
    simp [nuttx_get_thread_reg_list, h]
  · intro h
    constructor
    · simp only [nuttx_get_thread_reg_list, if_neg h]
      exact getregs_fromstack_ne_live t r tid
    · intro priv sel syms off regsaddr hpv hsel hsyms hoff hread
      simp [nuttx_get_thread_reg_list, if_neg h, nuttx_getregs_fromstack,
        hpv, hsel, hsyms, hoff, hread]

/-- C7 witness: with current thread 8192, asking for 8192 hits the live
register cache; asking for 12288 unpacks from the stack at the pointer 0
read at `12288 + 12`. -/
theorem reg_list_routing_witness :
    nuttx_get_thread_reg_list exTarget (some { exRtos with current_thread := 8192 })
      8192 = .live ∧
    nuttx_get_thread_reg_list exTarget (some { exRtos with current_thread := 8192 })
      12288 = .stack (run_select .cortexm exTarget) 0 := by
  refine ⟨(reg_list_routing exTarget { exRtos with current_thread := 8192 } 8192).1
    rfl, ?_⟩
  exact ((reg_list_routing exTarget { exRtos with current_thread := 8192 } 12288).2
      (by decide)).2 ⟨"cortex_m", some .cortexm⟩ .cortexm exSyms 12 0 rfl rfl rfl
      (by decide) (by decide)

end Nuttx
